import Mathlib

/-!
Shallow embedding of the YMODEM sender engine (`src/ymodem.ts`) of the
ElenaWatchDevTools repository, together with proofs of the specification
claims about it.

Buffers are modelled as `List Nat` whose entries are byte values.
JavaScript 32-bit integer wrap-around in the CRC loop is modelled with
explicit `% 4294967296`; bitwise operators are `Nat` bitwise operators.
Asynchronous behaviour is modelled by an explicit environment: the receive
buffer contents plus the list of byte chunks that the transport will deliver
within the timeout window; exhausting that list models a timeout.
-/

set_option maxRecDepth 100000

namespace Ymodem

/-- `SOH = 0x01`, start of a 128-byte packet. -/
def SOH : Nat := 0x01
/-- `STX = 0x02`, start of a 1024-byte packet. -/
def STX : Nat := 0x02
/-- `EOT = 0x04`, end of transmission. -/
def EOT : Nat := 0x04
/-- `ACK = 0x06`. -/
def ACK : Nat := 0x06
/-- `NAK = 0x15`. -/
def NAK : Nat := 0x15
/-- `CA = 0x18` (cancel, recognised but never sent). -/
def CA : Nat := 0x18
/-- `ASCII_C = 0x43`, the receiver's CRC-mode request byte. -/
def ASCII_C : Nat := 0x43
/-- 128-byte packet size. -/
def PACKET_SIZE_128 : Nat := 128
/-- 1024-byte packet size. -/
def PACKET_SIZE_1024 : Nat := 1024

/-- One iteration of the inner 8-step shift loop of `crc16xmodem`:
`if (crc & 0x8000) crc = (crc << 1) ^ 0x1021; else crc <<= 1;`, with the
JavaScript 32-bit wrap of `<<` made explicit. -/
def crcShiftLoop (crc : Nat) : Nat → Nat
  | 0 => crc
  | j + 1 =>
    if crc &&& 0x8000 ≠ 0 then
      crcShiftLoop (((crc <<< 1) % 4294967296) ^^^ 0x1021) j
    else
      crcShiftLoop ((crc <<< 1) % 4294967296) j

/-- `crc16xmodem(buffer, offset, length)` from the source: for each of the
`length` bytes starting at `offset`, XOR the byte into the high byte of the
register, run the 8-step shift loop, and finally mask to 16 bits. -/
def crc16xmodem (buffer : List Nat) (offset : Nat) (length : Nat) : Nat :=
  ((List.range length).foldl
    (fun crc i => crcShiftLoop (crc ^^^ ((buffer.getD (offset + i) 0) <<< 8 % 4294967296)) 8)
    0) &&& 0xFFFF

/-- One shift step of the CRC-16/XMODEM reference algorithm, keeping the
register within 16 bits at every step.  Modelled from the spec: "polynomial
`0x1021` ... 8 shift-and-conditional-XOR steps". -/
def crc16refStep (crc : Nat) : Nat :=
  if crc &&& 0x8000 ≠ 0 then ((crc <<< 1) ^^^ 0x1021) % 65536
  else (crc <<< 1) % 65536

/-- `n` shift steps of the reference algorithm. -/
def crc16refRounds (crc : Nat) : Nat → Nat
  | 0 => crc
  | j + 1 => crc16refRounds (crc16refStep crc) j

/-- The CRC-16/XMODEM reference checksum of a byte list.  Modelled from the
spec: "initial register `0`, polynomial `0x1021`, processes each byte
MSB-first by XOR-ing it into the high byte of the 16-bit register, then
performing 8 shift-and-conditional-XOR steps; no final XOR, no
reflection". -/
def crc16ref (bytes : List Nat) : Nat :=
  bytes.foldl (fun crc b => crc16refRounds (crc ^^^ (b <<< 8)) 8) 0

/-- `Buffer.write(src, offset)` on a fixed-size buffer: copy as many bytes of
`src` as fit starting at `offset`, leave the rest of the buffer unchanged,
and return the new buffer together with the number of bytes written. -/
def bufWrite (buf : List Nat) (src : List Nat) (offset : Nat) : List Nat × Nat :=
  let n := min src.length (buf.length - offset)
  (buf.take offset ++ src.take n ++ buf.drop (offset + n), n)

/-- The byte list of the ASCII decimal representation of `n`
(JavaScript template interpolation of a number). -/
def natDecimalBytes (n : Nat) : List Nat :=
  (Nat.repr n).data.map Char.toNat

/-- `buildPacket(data, blockNum, packetSize)` from the source: a 3-byte
header `[SOH|STX, blockNum & 0xFF, 0xFF - (blockNum & 0xFF)]`, the data
padded with `0x1A` to `packetSize`, and the CRC of the padded payload in
big-endian order. -/
def buildPacket (data : List Nat) (blockNum : Nat) (packetSize : Nat) : List Nat :=
  let header := [if packetSize = PACKET_SIZE_128 then SOH else STX,
                 blockNum &&& 0xFF, 0xFF - (blockNum &&& 0xFF)]
  let copyLen := min data.length packetSize
  let payload := data.take copyLen ++ List.replicate (packetSize - copyLen) 0x1A
  let crc := crc16xmodem payload 0 packetSize
  header ++ payload ++ [crc >>> 8, crc &&& 0xFF]

/-- `buildHeaderPacket(filename, filesize)` from the source: a zero-filled
128-byte payload with the filename written at offset 0 and the ASCII decimal
file size written after a zero separator; header `[SOH, 0x00, 0xFF]` and the
big-endian CRC of the payload.  The filename is modelled by its byte list. -/
def buildHeaderPacket (filename : List Nat) (filesize : Nat) : List Nat :=
  let payload0 := List.replicate PACKET_SIZE_128 0
  let w1 := bufWrite payload0 filename 0
  let w2 := bufWrite w1.1 (natDecimalBytes filesize) (w1.2 + 1)
  let payload := w2.1
  let crc := crc16xmodem payload 0 PACKET_SIZE_128
  [SOH, 0x00, 0xFF] ++ payload ++ [crc >>> 8, crc &&& 0xFF]

/-- The loop of `splitFileToPackets`: while `offset < total`, pick the chunk
size (`128` when the remaining tail is at most 128 bytes, else `1024`), slice
the chunk, build its packet and advance. -/
def splitGo (buffer : List Nat) (total : Nat) (offset : Nat) (block : Nat) :
    List (List Nat) :=
  if offset < total then
    let chunkSize := if total - offset ≤ PACKET_SIZE_128 then PACKET_SIZE_128
                     else PACKET_SIZE_1024
    let chunk := (buffer.drop offset).take chunkSize
    buildPacket chunk block chunkSize :: splitGo buffer total (offset + chunkSize) (block + 1)
  else
    []
termination_by total - offset
decreasing_by
  simp only [PACKET_SIZE_128, PACKET_SIZE_1024]
  split <;> omega

/-- `splitFileToPackets(buffer)` from the source. -/
def splitFileToPackets (buffer : List Nat) : List (List Nat) :=
  splitGo buffer buffer.length 0 1

/-- The packet size the split loop picks for the chunk starting at offset
`1024 * j` of a `total`-byte file: 128 when the remaining tail is at most
128 bytes, 1024 otherwise. -/
def chunkSizeAt (total j : Nat) : Nat :=
  if total - 1024 * j ≤ 128 then 128 else 1024

/-- The number of chunks the split loop still produces when it has consumed
`k` chunks (all previous advances being 1024 bytes). -/
def numChunksFrom (total k : Nat) : Nat :=
  (total - 1024 * k + 1023) / 1024

/-- `extractCharFromBuffer(valid)` from the source, with the global receive
buffer passed explicitly: scan left to right for the first byte in `valid`;
if found, return it and the buffer with that byte and everything before it
removed; otherwise leave the buffer unchanged. -/
def extractCharFromBuffer (valid : List Nat) : List Nat → Option Nat × List Nat
  | [] => (none, [])
  | b :: rest =>
    if b ∈ valid then (some b, rest)
    else
      match extractCharFromBuffer valid rest with
      | (some c, rest2) => (some c, rest2)
      | (none, _) => (none, b :: rest)

/-- `waitChar` from the source: first try to extract a valid byte from the
current buffer; otherwise consume the chunks the transport delivers within
the timeout window one at a time, appending each to the buffer and
rescanning.  Running out of delivered chunks models the timeout.  On success
it returns the matched byte, the remaining buffer and the undelivered
chunks. -/
def waitCharGo (valid : List Nat) :
    List Nat → List (List Nat) → Option (Nat × List Nat × List (List Nat))
  | buffer, incoming =>
    match extractCharFromBuffer valid buffer with
    | (some c, rest) => some (c, rest, incoming)
    | (none, rest) =>
      match incoming with
      | [] => none
      | chunk :: more => waitCharGo valid (rest ++ chunk) more

/-- One instruction of the straight-line `transfer` body: a transport write,
a `waitChar` call, or a progress callback invocation. -/
inductive Instr where
  | write (bytes : List Nat)
  | wait (valid : List Nat)
  | progress (sent : Nat) (total : Nat)
deriving Repr, DecidableEq

/-- An observable event of a `transfer` run. -/
inductive Ev where
  | write (bytes : List Nat)
  | wait (valid : List Nat) (got : Nat)
  | progress (sent : Nat) (total : Nat)
deriving Repr, DecidableEq

/-- Run a list of instructions against the receive buffer and the incoming
chunk schedule, recording the events in order.  A `wait` whose byte never
arrives fails with the source's timeout error and stops the run.  Transport
writes are modelled as always succeeding: a rejected `serial.write` in the
source propagates its own error out of `transfer` and is not modelled, so
this interpreter supports claims about runs whose writes succeed but decides
nothing about which other errors `transfer` can surface. -/
def runScript : List Instr → List Nat → List (List Nat) →
    List Ev × Except String (List Nat × List (List Nat))
  | [], buffer, incoming => ([], Except.ok (buffer, incoming))
  | Instr.write b :: rest, buffer, incoming =>
    let r := runScript rest buffer incoming
    (Ev.write b :: r.1, r.2)
  | Instr.progress s t :: rest, buffer, incoming =>
    let r := runScript rest buffer incoming
    (Ev.progress s t :: r.1, r.2)
  | Instr.wait v :: rest, buffer, incoming =>
    match waitCharGo v buffer incoming with
    | none => ([], Except.error "Timeout waiting for receiver")
    | some (c, buffer2, incoming2) =>
      let r := runScript rest buffer2 incoming2
      (Ev.wait v c :: r.1, r.2)

/-- The exact write/wait/progress sequence of the `transfer` body: wait for
`'C'`, send the header packet, wait for `ACK` then `'C'`, then per data
packet write it, wait for `ACK` and report progress, then the two `EOT`s
(waiting for `NAK` then `ACK`), wait for `'C'`, send the empty header packet
and wait for the final `ACK`. -/
def transferScript (filename : List Nat) (fileBuffer : List Nat) : List Instr :=
  let packets := splitFileToPackets fileBuffer
  [Instr.wait [ASCII_C],
   Instr.write (buildHeaderPacket filename fileBuffer.length),
   Instr.wait [ACK],
   Instr.wait [ASCII_C]]
  ++ (packets.enum.map
      (fun p => [Instr.write p.2, Instr.wait [ACK], Instr.progress (p.1 + 1) packets.length])).flatten
  ++ [Instr.write [EOT],
      Instr.wait [NAK],
      Instr.write [EOT],
      Instr.wait [ACK],
      Instr.wait [ASCII_C],
      Instr.write (buildHeaderPacket [] 0),
      Instr.wait [ACK]]

/-- The final value of the `writtenBytes` counter, which the loop reassigns
to `min((i + 1) * PACKET_SIZE_1024, totalBytes)` after each acknowledged
packet (`0` when there is no packet). -/
def writtenBytesAfter (numPackets : Nat) (totalBytes : Nat) : Nat :=
  (List.range numPackets).foldl (fun _w i => min ((i + 1) * PACKET_SIZE_1024) totalBytes) 0

/-- The result record of a successful `transfer`. -/
structure TransferResult where
  filePath : List Nat
  totalBytes : Nat
  writtenBytes : Nat
deriving Repr, DecidableEq

/-- `transfer(serial, filename, fileBuffer, onProgress, logger)` from the
source, run against an explicit environment: the initial receive buffer and
the chunk schedule the transport delivers.  Returns the event trace and
either the timeout error or the `TransferResult`. -/
def transfer (filename : List Nat) (fileBuffer : List Nat)
    (buffer : List Nat) (incoming : List (List Nat)) :
    List Ev × Except String TransferResult :=
  let packets := splitFileToPackets fileBuffer
  let totalBytes := fileBuffer.length
  let r := runScript (transferScript filename fileBuffer) buffer incoming
  (r.1, r.2.map (fun _ =>
    ⟨filename, totalBytes, writtenBytesAfter packets.length totalBytes⟩))

/-! ### Bitwise helper lemmas -/

lemma xor_mod_two_pow (a b k : Nat) :
    (a ^^^ b) % 2 ^ k = (a % 2 ^ k) ^^^ (b % 2 ^ k) := by
  apply Nat.eq_of_testBit_eq
  intro i
  by_cases h : i < k <;>
    simp [Nat.testBit_mod_two_pow, Nat.testBit_xor, h]

lemma and_bit15 (x : Nat) : (x &&& 0x8000 ≠ 0) ↔ x.testBit 15 := by
  have h : (0x8000 : Nat) = 2 ^ 15 := by norm_num
  rw [h, Nat.and_two_pow]
  cases hx : x.testBit 15 <;> simp [hx]

lemma testBit15_mod_two_pow_16 (x : Nat) : (x % 65536).testBit 15 = x.testBit 15 := by
  have h := Nat.testBit_mod_two_pow x 16 15
  norm_num at h
  exact h

lemma xor_mod_65536 (a b : Nat) : (a ^^^ b) % 65536 = (a % 65536) ^^^ (b % 65536) := by
  have h := xor_mod_two_pow a b 16
  norm_num at h
  exact h

lemma shl1_mod32_mod16 (x : Nat) :
    (x <<< 1) % 4294967296 % 65536 = ((x % 65536) <<< 1) % 65536 := by
  simp only [Nat.shiftLeft_eq, pow_one]
  omega

/-- One shift-loop step of the source CRC agrees with one reference step on
the low 16 bits. -/
lemma crcShiftLoop_mod (j : Nat) : ∀ crc : Nat,
    crcShiftLoop crc j % 65536 = crc16refRounds (crc % 65536) j := by
  induction j with
  | zero => intro crc; rfl
  | succ j ih =>
    intro crc
    have hcond : (crc &&& 0x8000 ≠ 0) ↔ ((crc % 65536) &&& 0x8000 ≠ 0) := by
      rw [and_bit15, and_bit15, testBit15_mod_two_pow_16]
    by_cases hb : crc &&& 0x8000 ≠ 0
    · have hb2 : (crc % 65536) &&& 0x8000 ≠ 0 := hcond.mp hb
      simp only [crcShiftLoop, crc16refRounds, crc16refStep, if_pos hb, if_pos hb2]
      rw [ih]
      congr 1
      rw [xor_mod_65536, xor_mod_65536, shl1_mod32_mod16]
    · have hb2 : ¬ ((crc % 65536) &&& 0x8000 ≠ 0) := fun h => hb (hcond.mpr h)
      simp only [crcShiftLoop, crc16refRounds, crc16refStep, if_neg hb, if_neg hb2]
      rw [ih, shl1_mod32_mod16]

/-- The indexed fold of `crc16xmodem` at offset 0 over the whole buffer is a
plain fold over the byte list. -/
lemma crc16_fold_range (bytes : List Nat) (f : Nat → Nat → Nat) :
    ∀ init : Nat,
    (List.range bytes.length).foldl (fun crc i => f crc (bytes.getD i 0)) init
      = bytes.foldl f init := by
  induction bytes with
  | nil => intro init; rfl
  | cons b rest ih =>
    intro init
    simp only [List.length_cons, List.range_succ_eq_map, List.foldl_cons, List.foldl_map,
      List.getD_cons_zero, List.getD_cons_succ]
    exact ih (f init b)

/-- The source CRC fold agrees with the reference fold on the low 16 bits. -/
lemma crc16_foldl_mod (bytes : List Nat) (hb : ∀ b ∈ bytes, b < 256) :
    ∀ code : Nat,
    (bytes.foldl (fun crc b => crcShiftLoop (crc ^^^ (b <<< 8 % 4294967296)) 8) code) % 65536
      = bytes.foldl (fun crc b => crc16refRounds (crc ^^^ (b <<< 8)) 8) (code % 65536) := by
  induction bytes with
  | nil => intro code; rfl
  | cons b rest ih =>
    intro code
    simp only [List.foldl_cons]
    rw [ih (fun x hx => hb x (List.mem_cons_of_mem b hx))]
    congr 1
    rw [crcShiftLoop_mod]
    congr 1
    have hblt : b < 256 := hb b (List.mem_cons_self b rest)
    have hsh : b <<< 8 % 4294967296 = b <<< 8 := by
      apply Nat.mod_eq_of_lt
      simp only [Nat.shiftLeft_eq]
      omega
    have hsh16 : b <<< 8 % 65536 = b <<< 8 := by
      apply Nat.mod_eq_of_lt
      simp only [Nat.shiftLeft_eq]
      omega
    rw [hsh, xor_mod_65536, hsh16]

lemma and_0xFFFF_eq_mod (x : Nat) : x &&& 0xFFFF = x % 65536 := by
  have h : (0xFFFF : Nat) = 2 ^ 16 - 1 := by norm_num
  rw [h, Nat.and_pow_two_sub_one_eq_mod]

lemma and_0xFF_eq_mod (x : Nat) : x &&& 0xFF = x % 256 := by
  have h : (0xFF : Nat) = 2 ^ 8 - 1 := by norm_num
  rw [h, Nat.and_pow_two_sub_one_eq_mod]

/-- `crc16xmodem` always returns a 16-bit value. -/
lemma crc16xmodem_lt (buffer : List Nat) (offset length : Nat) :
    crc16xmodem buffer offset length < 65536 := by
  unfold crc16xmodem
  rw [and_0xFFFF_eq_mod]
  exact Nat.mod_lt _ (by norm_num)

/-! ### C1 -/

/-- C1: `crc16xmodem` computes the CRC-16/XMODEM value — it agrees with the
reference algorithm (initial register 0, polynomial `0x1021`, each byte
XOR-ed into the high byte of the 16-bit register MSB-first followed by 8
shift-and-conditional-XOR steps, no final XOR, no reflection) on every byte
sequence, and matches the standard reference values for the 128-byte
all-zero buffer (`0x0000`) and the ASCII string `"123456789"` (`0x31C3`). -/
theorem crc16xmodem_matches_reference (bytes : List Nat) (hb : ∀ b ∈ bytes, b < 256) :
    crc16xmodem bytes 0 bytes.length = crc16ref bytes ∧
    crc16xmodem (List.replicate 128 0) 0 128 = 0 ∧
    crc16xmodem [0x31, 0x32, 0x33, 0x34, 0x35, 0x36, 0x37, 0x38, 0x39] 0 9 = 0x31C3 := by
  refine ⟨?_, by decide, by decide⟩
  unfold crc16xmodem crc16ref
  simp only [Nat.zero_add]
  rw [and_0xFFFF_eq_mod]
  have h1 : (List.range bytes.length).foldl
      (fun crc i => crcShiftLoop (crc ^^^ (bytes.getD i 0 <<< 8 % 4294967296)) 8) 0
      = bytes.foldl (fun crc b => crcShiftLoop (crc ^^^ (b <<< 8 % 4294967296)) 8) 0 :=
    crc16_fold_range bytes (fun crc b => crcShiftLoop (crc ^^^ (b <<< 8 % 4294967296)) 8) 0
  rw [h1, crc16_foldl_mod bytes hb 0]

/-- Witness for C1 at the concrete byte list `[1, 2, 3]`. -/
theorem crc16xmodem_matches_reference_witness :
    (∀ b ∈ [(1 : Nat), 2, 3], b < 256) ∧
    (crc16xmodem [1, 2, 3] 0 3 = crc16ref [1, 2, 3] ∧
     crc16xmodem (List.replicate 128 0) 0 128 = 0 ∧
     crc16xmodem [0x31, 0x32, 0x33, 0x34, 0x35, 0x36, 0x37, 0x38, 0x39] 0 9 = 0x31C3) :=
  ⟨by decide, crc16xmodem_matches_reference [1, 2, 3] (by decide)⟩

/-! ### C2 -/

/-- C2: for every payload chunk of length `≤ packetSize`, block number
`0..255` and `packetSize ∈ {128, 1024}`, `buildPacket` returns a buffer of
length exactly `3 + packetSize + 2` whose bytes are: byte 0 is `SOH` when
`packetSize = 128` and `STX` when it is 1024, byte 1 the block number,
byte 2 `0xFF` minus the block number, bytes `[3, 3 + packetSize)` the chunk
followed by `0x1A` filler, and the final two bytes the big-endian CRC of
that exact padded region.  `buildPacket` is a total function, so the
construction never fails. -/
theorem buildPacket_wire_format (data : List Nat) (blockNum packetSize : Nat)
    (hlen : data.length ≤ packetSize) (hblk : blockNum ≤ 255)
    (_hps : packetSize = 128 ∨ packetSize = 1024) :
    (buildPacket data blockNum packetSize).length = 3 + packetSize + 2 ∧
    (buildPacket data blockNum packetSize).take 3 =
      [if packetSize = 128 then SOH else STX, blockNum, 0xFF - blockNum] ∧
    ((buildPacket data blockNum packetSize).drop 3).take packetSize =
      data ++ List.replicate (packetSize - data.length) 0x1A ∧
    (buildPacket data blockNum packetSize).drop (3 + packetSize) =
      [crc16xmodem (data ++ List.replicate (packetSize - data.length) 0x1A) 0 packetSize / 256,
       crc16xmodem (data ++ List.replicate (packetSize - data.length) 0x1A) 0 packetSize % 256] := by
  have hand : blockNum &&& 0xFF = blockNum := by
    rw [and_0xFF_eq_mod]
    omega
  have hmin : min data.length packetSize = data.length := Nat.min_eq_left hlen
  have hpay : (data ++ List.replicate (packetSize - data.length) 0x1A).length = packetSize := by
    simp only [List.length_append, List.length_replicate]
    omega
  have hcrc := crc16xmodem_lt (data ++ List.replicate (packetSize - data.length) 0x1A) 0 packetSize
  have hshr : crc16xmodem (data ++ List.replicate (packetSize - data.length) 0x1A) 0 packetSize >>> 8
      = crc16xmodem (data ++ List.replicate (packetSize - data.length) 0x1A) 0 packetSize / 256 := by
    rw [Nat.shiftRight_eq_div_pow]
  unfold buildPacket
  simp only [hmin, hand, List.take_length, PACKET_SIZE_128]
  refine ⟨?_, ?_, ?_, ?_⟩
  · simp only [List.length_append, List.length_cons, List.length_replicate,
      List.length_nil]
    omega
  · rfl
  · show ((data ++ List.replicate (packetSize - data.length) 0x1A) ++ _).take packetSize = _
    rw [List.take_left' hpay]
  · show ([_, _, _] ++ ((data ++ List.replicate (packetSize - data.length) 0x1A) ++ _)).drop (3 + packetSize) = _
    rw [show 3 + packetSize = ([if packetSize = 128 then SOH else STX, blockNum,
        0xFF - blockNum]).length + packetSize by simp, List.drop_append,
      List.drop_left' hpay, hshr, and_0xFF_eq_mod]

/-- Witness for C2: a 3-byte chunk, block 7, packet size 128. -/
theorem buildPacket_wire_format_witness :
    (([(10 : Nat), 20, 30]).length ≤ 128 ∧ (7 : Nat) ≤ 255 ∧ ((128 : Nat) = 128 ∨ (128 : Nat) = 1024)) ∧
    ((buildPacket [10, 20, 30] 7 128).length = 3 + 128 + 2 ∧
     (buildPacket [10, 20, 30] 7 128).take 3 =
       [if (128 : Nat) = 128 then SOH else STX, 7, 0xFF - 7] ∧
     ((buildPacket [10, 20, 30] 7 128).drop 3).take 128 =
       [10, 20, 30] ++ List.replicate (128 - ([(10 : Nat), 20, 30]).length) 0x1A ∧
     (buildPacket [10, 20, 30] 7 128).drop (3 + 128) =
       [crc16xmodem ([10, 20, 30] ++ List.replicate (128 - ([(10 : Nat), 20, 30]).length) 0x1A) 0 128 / 256,
        crc16xmodem ([10, 20, 30] ++ List.replicate (128 - ([(10 : Nat), 20, 30]).length) 0x1A) 0 128 % 256]) :=
  ⟨⟨by decide, by decide, Or.inl rfl⟩,
   buildPacket_wire_format [10, 20, 30] 7 128 (by decide) (by decide) (Or.inl rfl)⟩

/-! ### C7 -/

lemma bufWrite_start (buf src : List Nat) (h : src.length ≤ buf.length) :
    bufWrite buf src 0 = (src ++ buf.drop src.length, src.length) := by
  unfold bufWrite
  simp only [Nat.sub_zero, Nat.min_eq_left h, List.take_zero, List.nil_append,
    List.take_length, Nat.zero_add]

lemma bufWrite_mid (pre post src : List Nat) (hpost : src.length ≤ post.length) :
    bufWrite (pre ++ post) src pre.length
      = (pre ++ src ++ post.drop src.length, src.length) := by
  unfold bufWrite
  have hmin : min src.length ((pre ++ post).length - pre.length) = src.length := by
    simp only [List.length_append]
    omega
  simp only [hmin, List.take_left, List.take_length, List.drop_append, List.append_assoc]

/-- C7: for every filename and file size whose encoding (filename bytes, one
`0x00` separator, ASCII decimal size) fits in 128 bytes, `buildHeaderPacket`
returns a 133-byte packet with kind `SOH`, block number 0 and complement
`0xFF`, whose 128-byte payload is the filename at offset 0, a `0x00`
separator, the ASCII decimal file size, and zeros in every remaining byte;
and `buildHeaderPacket [] 0` yields the terminator packet, whose payload is
that of the empty filename and size 0. -/
theorem buildHeaderPacket_wire_format (filename : List Nat) (filesize : Nat)
    (hfit : filename.length + 1 + (natDecimalBytes filesize).length ≤ 128) :
    (buildHeaderPacket filename filesize).length = 133 ∧
    (buildHeaderPacket filename filesize).take 3 = [SOH, 0x00, 0xFF] ∧
    ((buildHeaderPacket filename filesize).drop 3).take 128 =
      filename ++ [0x00] ++ natDecimalBytes filesize ++
        List.replicate (128 - filename.length - 1 - (natDecimalBytes filesize).length) 0 ∧
    ((buildHeaderPacket [] 0).drop 3).take 128 =
      [] ++ [0x00] ++ natDecimalBytes 0 ++ List.replicate 126 0 := by
  have hw1 : bufWrite (List.replicate 128 0) filename 0
      = (filename ++ List.replicate (128 - filename.length) 0, filename.length) := by
    rw [bufWrite_start _ _ (by simp only [List.length_replicate]; omega),
      List.drop_replicate]
  have hrep : List.replicate (128 - filename.length) (0 : Nat)
      = [0] ++ List.replicate (127 - filename.length) 0 := by
    rw [show 128 - filename.length = (127 - filename.length) + 1 by omega]
    rfl
  have hw2 : bufWrite ((filename ++ [0]) ++ List.replicate (127 - filename.length) 0)
      (natDecimalBytes filesize) (filename ++ [0]).length
      = ((filename ++ [0]) ++ natDecimalBytes filesize ++
          List.replicate (127 - filename.length - (natDecimalBytes filesize).length) 0,
         (natDecimalBytes filesize).length) := by
    rw [bufWrite_mid _ _ _ (by simp only [List.length_replicate]; omega),
      List.drop_replicate]
  have hlen2 : (filename ++ [0]).length = filename.length + 1 := by
    simp
  have hpayload :
      (bufWrite (filename ++ List.replicate (128 - filename.length) 0)
        (natDecimalBytes filesize) (filename.length + 1)).1
      = filename ++ [0x00] ++ natDecimalBytes filesize ++
          List.replicate (128 - filename.length - 1 - (natDecimalBytes filesize).length) 0 := by
    rw [hrep, ← List.append_assoc, ← hlen2, hw2]
    simp only [List.append_assoc]
    congr 3
    congr 1
    omega
  have hplen : (filename ++ [0x00] ++ natDecimalBytes filesize ++
      List.replicate (128 - filename.length - 1 - (natDecimalBytes filesize).length) 0).length
      = 128 := by
    simp only [List.length_append, List.length_cons, List.length_nil, List.length_replicate]
    omega
  refine ⟨?_, ?_, ?_, by decide⟩
  · unfold buildHeaderPacket
    simp only [PACKET_SIZE_128, hw1, hpayload]
    simp only [List.length_append, List.length_cons, List.length_nil, hplen]
  · rfl
  · unfold buildHeaderPacket
    simp only [PACKET_SIZE_128, hw1, hpayload]
    show ((filename ++ [0x00] ++ natDecimalBytes filesize ++ _) ++ _).take 128 = _
    rw [List.take_left' hplen]

/-- Witness for C7 at filename bytes `"a.js"` and size 2050. -/
theorem buildHeaderPacket_wire_format_witness :
    (([(0x61 : Nat), 0x2e, 0x6a, 0x73]).length + 1 + (natDecimalBytes 2050).length ≤ 128) ∧
    ((buildHeaderPacket [0x61, 0x2e, 0x6a, 0x73] 2050).length = 133 ∧
     (buildHeaderPacket [0x61, 0x2e, 0x6a, 0x73] 2050).take 3 = [SOH, 0x00, 0xFF] ∧
     ((buildHeaderPacket [0x61, 0x2e, 0x6a, 0x73] 2050).drop 3).take 128 =
       [0x61, 0x2e, 0x6a, 0x73] ++ [0x00] ++ natDecimalBytes 2050 ++
         List.replicate (128 - ([(0x61 : Nat), 0x2e, 0x6a, 0x73]).length - 1 -
           (natDecimalBytes 2050).length) 0 ∧
     ((buildHeaderPacket [] 0).drop 3).take 128 =
       [] ++ [0x00] ++ natDecimalBytes 0 ++ List.replicate 126 0) :=
  ⟨by decide, buildHeaderPacket_wire_format [0x61, 0x2e, 0x6a, 0x73] 2050 (by decide)⟩

/-! ### Receive synchronizer lemmas -/

lemma extractCharFromBuffer_not_found (valid buffer : List Nat)
    (h : ∀ b ∈ buffer, b ∉ valid) :
    extractCharFromBuffer valid buffer = (none, buffer) := by
  induction buffer with
  | nil => rfl
  | cons b rest ih =>
    have hb : b ∉ valid := h b (List.mem_cons_self b rest)
    simp only [extractCharFromBuffer, if_neg hb,
      ih (fun x hx => h x (List.mem_cons_of_mem b hx))]

lemma extractCharFromBuffer_found (valid : List Nat) (c : Nat) :
    ∀ pre suf : List Nat, (∀ x ∈ pre, x ∉ valid) → c ∈ valid →
    extractCharFromBuffer valid (pre ++ c :: suf) = (some c, suf) := by
  intro pre
  induction pre with
  | nil => intro suf _ hc; simp [extractCharFromBuffer, hc]
  | cons b rest ih =>
    intro suf hpre hc
    have hb : b ∉ valid := hpre b (List.mem_cons_self b rest)
    simp only [List.cons_append, extractCharFromBuffer, if_neg hb, List.append_eq,
      ih suf (fun x hx => hpre x (List.mem_cons_of_mem b hx)) hc]

lemma exists_first_valid (valid : List Nat) : ∀ buffer : List Nat,
    ¬ (∀ b ∈ buffer, b ∉ valid) →
    ∃ pre c suf, buffer = pre ++ c :: suf ∧ (∀ x ∈ pre, x ∉ valid) ∧ c ∈ valid := by
  intro buffer
  induction buffer with
  | nil => intro h; exact absurd (by simp) h
  | cons b rest ih =>
    intro h
    by_cases hb : b ∈ valid
    · exact ⟨[], b, rest, rfl, by simp, hb⟩
    · have hrest : ¬ (∀ x ∈ rest, x ∉ valid) := by
        intro hall
        apply h
        intro x hx
        rcases List.mem_cons.mp hx with rfl | h2
        · exact hb
        · exact hall x h2
      obtain ⟨pre, c, suf, heq, hpre, hc⟩ := ih hrest
      refine ⟨b :: pre, c, suf, by rw [heq, List.cons_append], ?_, hc⟩
      intro x hx
      rcases List.mem_cons.mp hx with rfl | h2
      · exact hb
      · exact hpre x h2

lemma waitCharGo_found (valid buffer : List Nat) (incoming : List (List Nat))
    (pre suf : List Nat) (c : Nat) (hsplit : buffer = pre ++ c :: suf)
    (hpre : ∀ x ∈ pre, x ∉ valid) (hc : c ∈ valid) :
    waitCharGo valid buffer incoming = some (c, suf, incoming) := by
  subst hsplit
  simp only [waitCharGo, extractCharFromBuffer_found valid c pre suf hpre hc]

lemma waitCharGo_step (valid buffer chunk : List Nat) (rest : List (List Nat))
    (h : ∀ b ∈ buffer, b ∉ valid) :
    waitCharGo valid buffer (chunk :: rest) = waitCharGo valid (buffer ++ chunk) rest := by
  conv_lhs => rw [waitCharGo]
  simp only [extractCharFromBuffer_not_found valid buffer h]

lemma waitCharGo_none_iff (valid : List Nat) : ∀ (incoming : List (List Nat)) (buffer : List Nat),
    waitCharGo valid buffer incoming = none ↔ ∀ b ∈ buffer ++ incoming.flatten, b ∉ valid := by
  intro incoming
  induction incoming with
  | nil =>
    intro buffer
    by_cases hb : ∀ b ∈ buffer, b ∉ valid
    · rw [waitCharGo]
      simp only [extractCharFromBuffer_not_found valid buffer hb]
      simpa using hb
    · obtain ⟨pre, c, suf, heq, hpre, hc⟩ := exists_first_valid valid buffer hb
      rw [waitCharGo_found valid buffer [] pre suf c heq hpre hc]
      constructor
      · intro h; cases h
      · intro h; exact absurd hc (h c (by rw [heq]; simp))
  | cons chunk more ih =>
    intro buffer
    by_cases hb : ∀ b ∈ buffer, b ∉ valid
    · rw [waitCharGo_step valid buffer chunk more hb, ih (buffer ++ chunk)]
      constructor
      · intro h x hx
        apply h x
        simp only [List.flatten_cons, List.append_assoc] at hx ⊢
        simpa using hx
      · intro h x hx
        apply h x
        simp only [List.flatten_cons, List.append_assoc] at hx ⊢
        simpa using hx
    · obtain ⟨pre, c, suf, heq, hpre, hc⟩ := exists_first_valid valid buffer hb
      rw [waitCharGo_found valid buffer (chunk :: more) pre suf c heq hpre hc]
      constructor
      · intro h; cases h
      · intro h; exact absurd hc (h c (by rw [heq]; simp))

/-- Every error a run can produce is the source's single timeout error. -/
lemma runScript_error_eq : ∀ (script : List Instr) (buffer : List Nat)
    (incoming : List (List Nat)) (e : String),
    (runScript script buffer incoming).2 = Except.error e →
    e = "Timeout waiting for receiver" := by
  intro script
  induction script with
  | nil => intro buffer incoming e h; cases h
  | cons i rest ih =>
    intro buffer incoming e h
    cases i with
    | write b => exact ih buffer incoming e h
    | progress s t => exact ih buffer incoming e h
    | wait v =>
      rw [runScript] at h
      cases hw : waitCharGo v buffer incoming with
      | none =>
        rw [hw] at h
        cases h
        rfl
      | some r =>
        rw [hw] at h
        exact ih r.2.1 r.2.2 e h

/-! ### C5 -/

/-- C5: one extraction step returns the first buffered byte in the accept
set and removes exactly that byte and all bytes before it, leaving the
suffix intact; it leaves the buffer completely unchanged when no buffered
byte is in the accept set; consequently a wait whose accept byte arrives
split across multiple chunk deliveries interleaved with noise bytes still
resolves with that byte necessarily, discarding only the bytes up to and
including it and leaving later deliveries untouched. -/
theorem extractChar_waitChar_spec (valid pre suf buffer noise : List Nat) (c : Nat)
    (rest : List (List Nat))
    (hpre : ∀ x ∈ pre, x ∉ valid) (hc : c ∈ valid)
    (hbuf : ∀ x ∈ buffer, x ∉ valid) (hnoise : ∀ x ∈ noise, x ∉ valid) :
    extractCharFromBuffer valid (pre ++ c :: suf) = (some c, suf) ∧
    extractCharFromBuffer valid buffer = (none, buffer) ∧
    waitCharGo valid buffer (noise :: (pre ++ c :: suf) :: rest) = some (c, suf, rest) := by
  refine ⟨extractCharFromBuffer_found valid c pre suf hpre hc,
          extractCharFromBuffer_not_found valid buffer hbuf, ?_⟩
  rw [waitCharGo_step valid buffer noise _ hbuf]
  rw [waitCharGo_step valid (buffer ++ noise) _ _ (by
    intro x hx
    rcases List.mem_append.mp hx with h1 | h2
    · exact hbuf x h1
    · exact hnoise x h2)]
  refine waitCharGo_found valid ((buffer ++ noise) ++ (pre ++ c :: suf)) rest
    ((buffer ++ noise) ++ pre) suf c (by simp [List.append_assoc]) ?_ hc
  intro x hx
  rcases List.mem_append.mp hx with h1 | h2
  · rcases List.mem_append.mp h1 with h3 | h4
    · exact hbuf x h3
    · exact hnoise x h4
  · exact hpre x h2

/-- Witness for C5: accept set `{6}`, a buffered noise byte, a first all-noise
delivery, then a delivery holding noise, the accept byte and a trailing
suffix. -/
theorem extractChar_waitChar_spec_witness :
    ((∀ x ∈ ([1, 2] : List Nat), x ∉ ([6] : List Nat)) ∧ (6 : Nat) ∈ ([6] : List Nat) ∧
     (∀ x ∈ ([3] : List Nat), x ∉ ([6] : List Nat)) ∧
     (∀ x ∈ ([4] : List Nat), x ∉ ([6] : List Nat))) ∧
    (extractCharFromBuffer [6] ([1, 2] ++ 6 :: [9]) = (some 6, [9]) ∧
     extractCharFromBuffer [6] [3] = (none, [3]) ∧
     waitCharGo [6] [3] ([4] :: ([1, 2] ++ 6 :: [9]) :: [[5]]) = some (6, [9], [[5]])) :=
  ⟨⟨by decide, by decide, by decide, by decide⟩,
   extractChar_waitChar_spec [6] [1, 2] [9] [3] [4] 6 [[5]]
     (by decide) (by decide) (by decide) (by decide)⟩

/-! ### C6 -/

/-- C6 (amended): a wait times out exactly when no byte of the accept set is
buffered or delivered within the timeout window; a timed-out wait stops the
run at that instruction with the fixed error value
"Timeout waiting for receiver" and runs nothing afterwards (no retry or
resend); and every error a run can produce is that one timeout error. -/
theorem waitChar_timeout_spec (valid buffer : List Nat) (incoming : List (List Nat))
    (script : List Instr) :
    (waitCharGo valid buffer incoming = none ↔ ∀ b ∈ buffer ++ incoming.flatten, b ∉ valid) ∧
    (waitCharGo valid buffer incoming = none →
      runScript (Instr.wait valid :: script) buffer incoming
        = ([], Except.error "Timeout waiting for receiver")) ∧
    (∀ e, (runScript script buffer incoming).2 = Except.error e →
      e = "Timeout waiting for receiver") := by
  refine ⟨waitCharGo_none_iff valid incoming buffer, ?_,
    fun e he => runScript_error_eq script buffer incoming e he⟩
  intro h
  simp only [runScript, h]

/-- Witness for C6 at accept set `{6}`, buffer `[1, 2]` and deliveries
`[3]`, `[4]`, none of which contains the accept byte. -/
theorem waitChar_timeout_spec_witness :
    (∀ b ∈ ([1, 2] : List Nat) ++ ([[3], [4]] : List (List Nat)).flatten, b ∉ ([6] : List Nat)) ∧
    runScript [Instr.wait [6]] [1, 2] [[3], [4]]
      = ([], Except.error "Timeout waiting for receiver") :=
  ⟨(waitChar_timeout_spec [6] [1, 2] [[3], [4]] []).1.mp (by decide),
   (waitChar_timeout_spec [6] [1, 2] [[3], [4]] []).2.1 (by decide)⟩

/-! ### C9 -/

/-- Each packet of the split covers at most `PACKET_SIZE_1024` bytes, so the
packet count times 1024 bounds the remaining byte count. -/
lemma splitGo_length_mul (buffer : List Nat) (total offset block : Nat) :
    total - offset ≤ 1024 * (splitGo buffer total offset block).length := by
  rw [splitGo]
  by_cases h : offset < total
  · by_cases hcs : total - offset ≤ PACKET_SIZE_128
    · simp only [if_pos h, if_pos hcs, List.length_cons]
      have ih := splitGo_length_mul buffer total (offset + PACKET_SIZE_128) (block + 1)
      simp only [PACKET_SIZE_128] at *
      omega
    · simp only [if_pos h, if_neg hcs, List.length_cons]
      have ih := splitGo_length_mul buffer total (offset + PACKET_SIZE_1024) (block + 1)
      simp only [PACKET_SIZE_1024] at *
      omega
  · simp only [if_neg h, List.length_nil]
    omega
termination_by total - offset
decreasing_by
  · simp only [PACKET_SIZE_128]
    omega
  · simp only [PACKET_SIZE_1024]
    omega

lemma writtenBytesAfter_succ (m t : Nat) :
    writtenBytesAfter (m + 1) t = min ((m + 1) * PACKET_SIZE_1024) t := by
  unfold writtenBytesAfter
  rw [List.range_succ, List.foldl_append]
  simp

/-- A successful `transfer` returns exactly the record the source builds
after the loop. -/
lemma transfer_ok_shape (filename fileBuffer buffer : List Nat)
    (incoming : List (List Nat)) (r : TransferResult)
    (h : (transfer filename fileBuffer buffer incoming).2 = Except.ok r) :
    r = ⟨filename, fileBuffer.length,
         writtenBytesAfter (splitFileToPackets fileBuffer).length fileBuffer.length⟩ := by
  simp only [transfer] at h
  rcases hrun : (runScript (transferScript filename fileBuffer) buffer incoming).2 with er | st
  · rw [hrun] at h
    simp only [Except.map] at h
    cases h
  · rw [hrun] at h
    simp only [Except.map, Except.ok.injEq] at h
    exact h.symm

/-- C9: on any successful completion of `transfer`, the returned result has
`writtenBytes = totalBytes = fileBuffer.length` and `filePath = filename`,
even though the running counter is reassigned to
`min ((i + 1) * 1024, totalBytes)` after each acknowledged packet. -/
theorem transfer_success_result (filename fileBuffer buffer : List Nat)
    (incoming : List (List Nat)) (r : TransferResult)
    (h : (transfer filename fileBuffer buffer incoming).2 = Except.ok r) :
    r.filePath = filename ∧ r.totalBytes = fileBuffer.length ∧
    r.writtenBytes = fileBuffer.length := by
  rw [transfer_ok_shape filename fileBuffer buffer incoming r h]
  refine ⟨rfl, rfl, ?_⟩
  show writtenBytesAfter (splitFileToPackets fileBuffer).length fileBuffer.length
    = fileBuffer.length
  have hmul := splitGo_length_mul fileBuffer fileBuffer.length 0 1
  rw [show splitGo fileBuffer fileBuffer.length 0 1 = splitFileToPackets fileBuffer from rfl]
    at hmul
  cases hn : (splitFileToPackets fileBuffer).length with
  | zero =>
    rw [hn] at hmul
    have h0 : fileBuffer.length = 0 := by omega
    rw [h0]
    rfl
  | succ m =>
    rw [hn] at hmul
    rw [writtenBytesAfter_succ]
    simp only [PACKET_SIZE_1024] at *
    omega

/-- C6 counterexample: two transfers that time out at different phases — one
before phase 1's wait for `'C'` yields any byte (empty trace), one at phase
2's wait for `ACK` after the header was written (two trace events) — fail
with the identical error value "Timeout waiting for receiver"; the timeout
error therefore does not carry the name of the phase. -/
theorem waitChar_timeout_no_phase_name :
    (transfer [97] [] [] []).2 = Except.error "Timeout waiting for receiver" ∧
    (transfer [97] [] [] [[0x43]]).2 = Except.error "Timeout waiting for receiver" ∧
    (transfer [97] [] [] []).1.length = 0 ∧
    (transfer [97] [] [] [[0x43]]).1.length = 2 := by
  have hsplit : splitFileToPackets ([] : List Nat) = [] := by
    rw [splitFileToPackets, splitGo]
    norm_num
  refine ⟨?_, ?_, ?_, ?_⟩ <;>
    simp [transfer, transferScript, hsplit, runScript, waitCharGo, extractCharFromBuffer,
      Except.map, ASCII_C, ACK]

/-! ### C8 -/

/-- C8 counterexample: a `transfer` called with an empty file name does not
fail with an InvalidInput error before phase 1 — its first recorded action
already is phase 1's wait for `'C'`, and with a cooperative receiver the
whole transfer completes successfully. -/
theorem transfer_empty_filename_accepted :
    (transfer [] [1, 2, 3, 4] [] [[0x43], [6], [0x43], [6], [0x15], [6], [0x43], [6]]).2
      = Except.ok ⟨[], 4, 4⟩ ∧
    (transfer [] [1, 2, 3, 4] [] [[0x43], [6], [0x43], [6], [0x15], [6], [0x43], [6]]).1.head?
      = some (Ev.wait [ASCII_C] ASCII_C) := by
  have hsplit : splitFileToPackets [1, 2, 3, 4] = [buildPacket [1, 2, 3, 4] 1 128] := by
    rw [splitFileToPackets, splitGo]
    norm_num [PACKET_SIZE_128, PACKET_SIZE_1024]
    rw [splitGo]
    norm_num
  constructor
  · simp [transfer, transferScript, hsplit, runScript, waitCharGo, extractCharFromBuffer,
      Except.map, ASCII_C, ACK, NAK, EOT, writtenBytesAfter, PACKET_SIZE_1024]
    decide
  · simp [transfer, transferScript, hsplit, runScript, waitCharGo, extractCharFromBuffer,
      Except.map, ASCII_C, ACK, NAK, EOT]

/-- C8 (amended): `transfer` performs no input validation: for every file
name — the empty one included — and every file, the first instruction of
the transfer body is phase 1's wait for `'C'`, so no write and no
validation failure precedes phase 1; and with an empty file name and a
cooperative receiver the transfer proceeds through the whole protocol and
completes successfully, never raising an InvalidInput error. -/
theorem transfer_no_input_validation (filename fileBuffer : List Nat) :
    (transferScript filename fileBuffer).head? = some (Instr.wait [ASCII_C]) ∧
    (transfer [] [1, 2, 3, 4] [] [[0x43], [6], [0x43], [6], [0x15], [6], [0x43], [6]]).2
      = Except.ok ⟨[], 4, 4⟩ := by
  refine ⟨rfl, ?_⟩
  have hsplit : splitFileToPackets [1, 2, 3, 4] = [buildPacket [1, 2, 3, 4] 1 128] := by
    rw [splitFileToPackets, splitGo]
    norm_num [PACKET_SIZE_128, PACKET_SIZE_1024]
    rw [splitGo]
    norm_num
  simp [transfer, transferScript, hsplit, runScript, waitCharGo, extractCharFromBuffer,
    Except.map, ASCII_C, ACK, NAK, EOT, writtenBytesAfter, PACKET_SIZE_1024]
  decide

/-- Witness for C9: a successful 3-byte transfer returning
`⟨[97], 3, 3⟩`. -/
theorem transfer_success_result_witness :
    (transfer [97] [1, 2, 3] [] [[0x43], [6], [0x43], [6], [0x15], [6], [0x43], [6]]).2
      = Except.ok ⟨[97], 3, 3⟩ ∧
    ((⟨[97], 3, 3⟩ : TransferResult).filePath = [97] ∧
     (⟨[97], 3, 3⟩ : TransferResult).totalBytes = ([1, 2, 3] : List Nat).length ∧
     (⟨[97], 3, 3⟩ : TransferResult).writtenBytes = ([1, 2, 3] : List Nat).length) := by
  have hsplit : splitFileToPackets [1, 2, 3] = [buildPacket [1, 2, 3] 1 128] := by
    rw [splitFileToPackets, splitGo]
    norm_num [PACKET_SIZE_128, PACKET_SIZE_1024]
    rw [splitGo]
    norm_num
  have h : (transfer [97] [1, 2, 3] [] [[0x43], [6], [0x43], [6], [0x15], [6], [0x43], [6]]).2
      = Except.ok ⟨[97], 3, 3⟩ := by
    simp [transfer, transferScript, hsplit, runScript, waitCharGo, extractCharFromBuffer,
      Except.map, ASCII_C, ACK, NAK, EOT, writtenBytesAfter, PACKET_SIZE_1024]
    decide
  exact ⟨h, transfer_success_result [97] [1, 2, 3] []
    [[0x43], [6], [0x43], [6], [0x15], [6], [0x43], [6]] ⟨[97], 3, 3⟩ h⟩

/-! ### C10 -/

/-- A run of a script without progress instructions records no progress
event. -/
lemma runScript_no_progress : ∀ (script : List Instr) (buffer : List Nat)
    (incoming : List (List Nat)) (s t : Nat),
    (∀ s' t', Instr.progress s' t' ∉ script) →
    Ev.progress s t ∉ (runScript script buffer incoming).1 := by
  intro script
  induction script with
  | nil =>
    intro buffer incoming s t _ hmem
    cases hmem
  | cons i rest ih =>
    intro buffer incoming s t hscript hmem
    cases i with
    | write b =>
      rcases List.mem_cons.mp hmem with heq | hmem2
      · cases heq
      · exact ih buffer incoming s t
          (fun s' t' h' => hscript s' t' (List.mem_cons_of_mem _ h')) hmem2
    | progress s' t' =>
      exact hscript s' t' (List.mem_cons_self _ _)
    | wait v =>
      rw [runScript] at hmem
      cases hw : waitCharGo v buffer incoming with
      | none =>
        rw [hw] at hmem
        cases hmem
      | some res =>
        rw [hw] at hmem
        rcases List.mem_cons.mp hmem with heq | hmem2
        · cases heq
        · exact ih res.2.1 res.2.2 s t
            (fun s' t' h' => hscript s' t' (List.mem_cons_of_mem _ h')) hmem2

/-- C10: for a zero-length file, `splitFileToPackets` returns no packets;
the transfer body nevertheless performs the full protocol sequence — header
packet announcing size 0, both EOTs, terminator packet, and all interleaved
waits — while sending no data packet and never reporting progress; and a
successful zero-length transfer returns `totalBytes = 0` and
`writtenBytes = 0`. -/
theorem transfer_empty_file (filename buffer : List Nat) (incoming : List (List Nat))
    (r : TransferResult)
    (h : (transfer filename [] buffer incoming).2 = Except.ok r) :
    splitFileToPackets [] = [] ∧
    transferScript filename [] =
      [Instr.wait [ASCII_C], Instr.write (buildHeaderPacket filename 0), Instr.wait [ACK],
       Instr.wait [ASCII_C], Instr.write [EOT], Instr.wait [NAK], Instr.write [EOT],
       Instr.wait [ACK], Instr.wait [ASCII_C], Instr.write (buildHeaderPacket [] 0),
       Instr.wait [ACK]] ∧
    (∀ s t, Ev.progress s t ∉ (transfer filename [] buffer incoming).1) ∧
    r.totalBytes = 0 ∧ r.writtenBytes = 0 := by
  have hsplit : splitFileToPackets ([] : List Nat) = [] := by
    rw [splitFileToPackets, splitGo]
    norm_num
  have hscript : transferScript filename [] =
      [Instr.wait [ASCII_C], Instr.write (buildHeaderPacket filename 0), Instr.wait [ACK],
       Instr.wait [ASCII_C], Instr.write [EOT], Instr.wait [NAK], Instr.write [EOT],
       Instr.wait [ACK], Instr.wait [ASCII_C], Instr.write (buildHeaderPacket [] 0),
       Instr.wait [ACK]] := by
    simp [transferScript, hsplit]
  refine ⟨hsplit, hscript, ?_, ?_, ?_⟩
  · intro s t
    have htrace : (transfer filename [] buffer incoming).1
        = (runScript (transferScript filename []) buffer incoming).1 := rfl
    rw [htrace]
    apply runScript_no_progress (transferScript filename []) buffer incoming s t
    intro s' t'
    rw [hscript]
    intro hmem
    simp at hmem
  · rw [transfer_ok_shape filename [] buffer incoming r h]
    rfl
  · rw [transfer_ok_shape filename [] buffer incoming r h]
    show writtenBytesAfter (splitFileToPackets []).length ([] : List Nat).length = 0
    rw [hsplit]
    rfl

/-- Witness for C10: a successful zero-length transfer with a cooperative
receiver. -/
theorem transfer_empty_file_witness :
    (transfer [97] [] [] [[0x43], [6], [0x43], [0x15], [6], [0x43], [6]]).2
      = Except.ok ⟨[97], 0, 0⟩ ∧
    (splitFileToPackets [] = [] ∧
     transferScript [97] [] =
       [Instr.wait [ASCII_C], Instr.write (buildHeaderPacket [97] 0), Instr.wait [ACK],
        Instr.wait [ASCII_C], Instr.write [EOT], Instr.wait [NAK], Instr.write [EOT],
        Instr.wait [ACK], Instr.wait [ASCII_C], Instr.write (buildHeaderPacket [] 0),
        Instr.wait [ACK]] ∧
     (∀ s t, Ev.progress s t ∉
        (transfer [97] [] [] [[0x43], [6], [0x43], [0x15], [6], [0x43], [6]]).1) ∧
     (⟨[97], 0, 0⟩ : TransferResult).totalBytes = 0 ∧
     (⟨[97], 0, 0⟩ : TransferResult).writtenBytes = 0) := by
  have hsplit : splitFileToPackets ([] : List Nat) = [] := by
    rw [splitFileToPackets, splitGo]
    norm_num
  have h : (transfer [97] [] [] [[0x43], [6], [0x43], [0x15], [6], [0x43], [6]]).2
      = Except.ok ⟨[97], 0, 0⟩ := by
    simp [transfer, transferScript, hsplit, runScript, waitCharGo, extractCharFromBuffer,
      Except.map, ASCII_C, ACK, NAK, EOT, writtenBytesAfter]
  exact ⟨h, transfer_empty_file [97] [] [[0x43], [6], [0x43], [0x15], [6], [0x43], [6]]
    ⟨[97], 0, 0⟩ h⟩

/-! ### C3 -/

/-- A 2050-byte file splits into two 1024-byte packets and one final
128-byte packet holding the 2-byte tail. -/
lemma splitFileToPackets_2050 (fb : List Nat) (h : fb.length = 2050) :
    splitFileToPackets fb =
      [buildPacket (fb.take 1024) 1 1024,
       buildPacket ((fb.drop 1024).take 1024) 2 1024,
       buildPacket ((fb.drop 2048).take 128) 3 128] := by
  rw [splitFileToPackets, h, splitGo]
  norm_num [PACKET_SIZE_128, PACKET_SIZE_1024]
  rw [splitGo]
  norm_num [PACKET_SIZE_128, PACKET_SIZE_1024]
  rw [splitGo]
  norm_num [PACKET_SIZE_128, PACKET_SIZE_1024]
  rw [splitGo]
  norm_num

/-- C3: for any 2050-byte file named "a.js" (bytes `[97, 46, 106, 115]`) and
the scenario reply schedule `'C'`, `ACK`, `'C'`, `ACK` after every data
write, `NAK` after the first `EOT`, `ACK` after the second, `'C'`, `ACK`,
the transfer performs its writes and waits in exactly the order of the
9-state table, sends exactly 3 data packets — two with 1024-byte payloads
and one with a 2-byte payload in a 128-byte packet —, reports progress
(1,3), (2,3), (3,3), and returns `{totalBytes := 2050,
writtenBytes := 2050}`. -/
theorem transfer_2050_scenario (fb : List Nat) (h : fb.length = 2050) :
    transfer [97, 46, 106, 115] fb []
      [[0x43], [6], [0x43], [6], [6], [6], [0x15], [6], [0x43], [6]]
    = ([Ev.wait [ASCII_C] ASCII_C,
        Ev.write (buildHeaderPacket [97, 46, 106, 115] 2050),
        Ev.wait [ACK] ACK,
        Ev.wait [ASCII_C] ASCII_C,
        Ev.write (buildPacket (fb.take 1024) 1 1024),
        Ev.wait [ACK] ACK,
        Ev.progress 1 3,
        Ev.write (buildPacket ((fb.drop 1024).take 1024) 2 1024),
        Ev.wait [ACK] ACK,
        Ev.progress 2 3,
        Ev.write (buildPacket ((fb.drop 2048).take 128) 3 128),
        Ev.wait [ACK] ACK,
        Ev.progress 3 3,
        Ev.write [EOT],
        Ev.wait [NAK] NAK,
        Ev.write [EOT],
        Ev.wait [ACK] ACK,
        Ev.wait [ASCII_C] ASCII_C,
        Ev.write (buildHeaderPacket [] 0),
        Ev.wait [ACK] ACK],
       Except.ok ⟨[97, 46, 106, 115], 2050, 2050⟩) ∧
    (fb.take 1024).length = 1024 ∧
    ((fb.drop 1024).take 1024).length = 1024 ∧
    ((fb.drop 2048).take 128).length = 2 := by
  have hsplit := splitFileToPackets_2050 fb h
  have hw : writtenBytesAfter 3 2050 = 2050 := by decide
  refine ⟨?_, ?_, ?_, ?_⟩
  · simp [transfer, transferScript, hsplit, h, hw, runScript, waitCharGo,
      extractCharFromBuffer, Except.map, ASCII_C, ACK, NAK, EOT]
  · simp [List.length_take, List.length_drop, h]
  · simp [List.length_take, List.length_drop, h]
  · simp [List.length_take, List.length_drop, h]

/-- Witness for C3 at the all-zero 2050-byte file. -/
theorem transfer_2050_scenario_witness :
    (List.replicate 2050 0).length = 2050 ∧
    (transfer [97, 46, 106, 115] (List.replicate 2050 0) []
      [[0x43], [6], [0x43], [6], [6], [6], [0x15], [6], [0x43], [6]]
    = ([Ev.wait [ASCII_C] ASCII_C,
        Ev.write (buildHeaderPacket [97, 46, 106, 115] 2050),
        Ev.wait [ACK] ACK,
        Ev.wait [ASCII_C] ASCII_C,
        Ev.write (buildPacket ((List.replicate 2050 0).take 1024) 1 1024),
        Ev.wait [ACK] ACK,
        Ev.progress 1 3,
        Ev.write (buildPacket (((List.replicate 2050 0).drop 1024).take 1024) 2 1024),
        Ev.wait [ACK] ACK,
        Ev.progress 2 3,
        Ev.write (buildPacket (((List.replicate 2050 0).drop 2048).take 128) 3 128),
        Ev.wait [ACK] ACK,
        Ev.progress 3 3,
        Ev.write [EOT],
        Ev.wait [NAK] NAK,
        Ev.write [EOT],
        Ev.wait [ACK] ACK,
        Ev.wait [ASCII_C] ASCII_C,
        Ev.write (buildHeaderPacket [] 0),
        Ev.wait [ACK] ACK],
       Except.ok ⟨[97, 46, 106, 115], 2050, 2050⟩) ∧
    ((List.replicate 2050 0).take 1024).length = 1024 ∧
    (((List.replicate 2050 0).drop 1024).take 1024).length = 1024 ∧
    (((List.replicate 2050 0).drop 2048).take 128).length = 2) :=
  ⟨by simp, transfer_2050_scenario (List.replicate 2050 0) (by simp)⟩

/-! ### C4 -/

/-- Closed form of the split loop: started at offset `1024 * k` with block
`k + 1`, it builds one packet per remaining chunk index, each chunk starting
at a multiple of 1024. -/
lemma splitGo_eq_map (buffer : List Nat) (total k : Nat) (htot : total = buffer.length) :
    splitGo buffer total (1024 * k) (k + 1)
      = (List.range' k (numChunksFrom total k)).map
          (fun j => buildPacket ((buffer.drop (1024 * j)).take (chunkSizeAt total j))
            (j + 1) (chunkSizeAt total j)) := by
  rw [splitGo]
  by_cases h : 1024 * k < total
  · by_cases hcs : total - 1024 * k ≤ PACKET_SIZE_128
    · have hnum : numChunksFrom total k = 1 := by
        unfold numChunksFrom
        simp only [PACKET_SIZE_128] at hcs
        omega
      have hrec : splitGo buffer total (1024 * k + PACKET_SIZE_128) (k + 1 + 1) = [] := by
        rw [splitGo, if_neg]
        simp only [PACKET_SIZE_128] at hcs ⊢
        omega
      have hsz : chunkSizeAt total k = PACKET_SIZE_128 := by
        unfold chunkSizeAt
        simp only [PACKET_SIZE_128] at hcs ⊢
        rw [if_pos hcs]
      rw [hnum, List.range'_one]
      simp only [if_pos h, if_pos hcs, hrec, List.map_cons, List.map_nil]
      rw [hsz]
    · have hnum : numChunksFrom total k = numChunksFrom total (k + 1) + 1 := by
        unfold numChunksFrom
        simp only [PACKET_SIZE_128] at hcs
        omega
      have hoff : 1024 * k + PACKET_SIZE_1024 = 1024 * (k + 1) := by
        simp only [PACKET_SIZE_1024]
        ring
      have hsz : chunkSizeAt total k = PACKET_SIZE_1024 := by
        unfold chunkSizeAt
        simp only [PACKET_SIZE_128, PACKET_SIZE_1024] at hcs ⊢
        rw [if_neg hcs]
      rw [hnum, List.range'_succ]
      simp only [if_pos h, if_neg hcs, List.map_cons]
      rw [hoff, splitGo_eq_map buffer total (k + 1) htot, hsz]
  · have hnum : numChunksFrom total k = 0 := by
      unfold numChunksFrom
      omega
    rw [hnum]
    simp [if_neg h]
termination_by total - 1024 * k
decreasing_by omega

/-- The chunks of the split loop tile the file from offset `1024 * k` to its
end, in order, with no gap and no overlap. -/
lemma chunks_cover (buffer : List Nat) (total k : Nat) (htot : total = buffer.length) :
    ((List.range' k (numChunksFrom total k)).map
        (fun j => (buffer.drop (1024 * j)).take (chunkSizeAt total j))).flatten
      = buffer.drop (1024 * k) := by
  by_cases h : 1024 * k < total
  · by_cases hcs : total - 1024 * k ≤ 128
    · have hnum : numChunksFrom total k = 1 := by
        unfold numChunksFrom
        omega
      have hsz : chunkSizeAt total k = 128 := by
        unfold chunkSizeAt
        rw [if_pos hcs]
      rw [hnum, List.range'_one]
      simp only [List.map_cons, List.map_nil, List.flatten_cons, List.flatten_nil,
        List.append_nil]
      rw [hsz]
      apply List.take_of_length_le
      rw [List.length_drop]
      omega
    · have hnum : numChunksFrom total k = numChunksFrom total (k + 1) + 1 := by
        unfold numChunksFrom
        omega
      have hsz : chunkSizeAt total k = 1024 := by
        unfold chunkSizeAt
        rw [if_neg hcs]
      rw [hnum, List.range'_succ]
      simp only [List.map_cons, List.flatten_cons]
      rw [chunks_cover buffer total (k + 1) htot, hsz]
      have hdd : buffer.drop (1024 * (k + 1)) = (buffer.drop (1024 * k)).drop 1024 := by
        rw [List.drop_drop]
        congr 1
      rw [hdd, List.take_append_drop]
  · have hnum : numChunksFrom total k = 0 := by
      unfold numChunksFrom
      omega
    rw [hnum]
    simp only [List.range'_zero, List.map_nil, List.flatten_nil]
    symm
    apply List.drop_eq_nil_of_le
    omega
termination_by total - 1024 * k
decreasing_by omega

/-- Byte 1 of a built packet is the block number wrapped modulo 256. -/
lemma buildPacket_blockByte (data : List Nat) (b s : Nat) :
    (buildPacket data b s)[1]? = some (b % 256) := by
  unfold buildPacket
  simp [and_0xFF_eq_mod]

/-- Byte 2 of a built packet is `0xFF` minus the wrapped block number. -/
lemma buildPacket_complByte (data : List Nat) (b s : Nat) :
    (buildPacket data b s)[2]? = some (255 - b % 256) := by
  unfold buildPacket
  simp [and_0xFF_eq_mod]

/-- C4: `splitFileToPackets` produces `⌈S/1024⌉` packets whose chunks cover
`[0, S)` in order with no gaps or overlaps; packet `i` is built from the
chunk at offset `1024 * i` with block number `i + 1`; the chunk is placed in
a 128-byte packet exactly when the remaining tail is at most 128 bytes
(1024-byte packet otherwise); every chunk except possibly the final one has
length 1024, the final one has length `S % 1024` unless that is 0 (then
1024); and each packet's block byte is the block number wrapped modulo 256
with complement byte `0xFF` minus that wrapped value. -/
theorem splitFileToPackets_chunking (buffer : List Nat) :
    (splitFileToPackets buffer).length = (buffer.length + 1023) / 1024 ∧
    ((List.range ((buffer.length + 1023) / 1024)).map
        (fun j => (buffer.drop (1024 * j)).take (chunkSizeAt buffer.length j))).flatten
      = buffer ∧
    ∀ i, i < (splitFileToPackets buffer).length →
      (splitFileToPackets buffer).getD i [] =
        buildPacket ((buffer.drop (1024 * i)).take (chunkSizeAt buffer.length i))
          (i + 1) (chunkSizeAt buffer.length i) ∧
      (chunkSizeAt buffer.length i = 128 ↔ buffer.length - 1024 * i ≤ 128) ∧
      (chunkSizeAt buffer.length i = 128 ∨ chunkSizeAt buffer.length i = 1024) ∧
      ((buffer.drop (1024 * i)).take (chunkSizeAt buffer.length i)).length
        = (if i + 1 = (splitFileToPackets buffer).length
           then (if buffer.length % 1024 = 0 then 1024 else buffer.length % 1024)
           else 1024) ∧
      ((splitFileToPackets buffer).getD i [])[1]? = some ((i + 1) % 256) ∧
      ((splitFileToPackets buffer).getD i [])[2]? = some (255 - (i + 1) % 256) := by
  have hmap := splitGo_eq_map buffer buffer.length 0 rfl
  rw [show (1024 * 0 : Nat) = 0 from rfl, show (0 + 1 : Nat) = 1 from rfl,
    ← List.range_eq_range'] at hmap
  have hn0 : numChunksFrom buffer.length 0 = (buffer.length + 1023) / 1024 := by
    unfold numChunksFrom
    omega
  have hlen : (splitFileToPackets buffer).length = (buffer.length + 1023) / 1024 := by
    rw [splitFileToPackets, hmap, List.length_map, List.length_range, hn0]
  refine ⟨hlen, ?_, ?_⟩
  · have hcov := chunks_cover buffer buffer.length 0 rfl
    rw [show (1024 * 0 : Nat) = 0 from rfl, ← List.range_eq_range', hn0,
      List.drop_zero] at hcov
    exact hcov
  · intro i hi
    have hi' : i < numChunksFrom buffer.length 0 := by
      rw [hn0]
      rw [hlen] at hi
      exact hi
    have hget : (splitFileToPackets buffer).getD i [] =
        buildPacket ((buffer.drop (1024 * i)).take (chunkSizeAt buffer.length i))
          (i + 1) (chunkSizeAt buffer.length i) := by
      rw [splitFileToPackets, hmap, List.getD_eq_getElem?_getD, List.getElem?_map,
        List.getElem?_range hi']
      rfl
    refine ⟨hget, ?_, ?_, ?_, ?_, ?_⟩
    · unfold chunkSizeAt
      split_ifs with hc
      · simp [hc]
      · simpa using hc
    · unfold chunkSizeAt
      split_ifs <;> simp
    · rw [hlen] at hi ⊢
      simp only [List.length_take, List.length_drop, chunkSizeAt]
      split_ifs <;> omega
    · rw [hget, buildPacket_blockByte]
    · rw [hget, buildPacket_complByte]

/-- Witness for C4 at a 4-byte file, whose single chunk sits in a 128-byte
packet with block number 1. -/
theorem splitFileToPackets_chunking_witness :
    (0 < (splitFileToPackets (List.replicate 4 0)).length) ∧
    ((splitFileToPackets (List.replicate 4 0)).getD 0 [] =
        buildPacket (((List.replicate 4 0).drop (1024 * 0)).take
            (chunkSizeAt (List.replicate 4 0).length 0))
          (0 + 1) (chunkSizeAt (List.replicate 4 0).length 0) ∧
     (chunkSizeAt (List.replicate 4 0).length 0 = 128 ↔
        (List.replicate 4 0).length - 1024 * 0 ≤ 128) ∧
     (chunkSizeAt (List.replicate 4 0).length 0 = 128 ∨
        chunkSizeAt (List.replicate 4 0).length 0 = 1024) ∧
     (((List.replicate 4 0).drop (1024 * 0)).take
          (chunkSizeAt (List.replicate 4 0).length 0)).length
        = (if 0 + 1 = (splitFileToPackets (List.replicate 4 0)).length
           then (if (List.replicate 4 0).length % 1024 = 0 then 1024
                 else (List.replicate 4 0).length % 1024)
           else 1024) ∧
     ((splitFileToPackets (List.replicate 4 0)).getD 0 [])[1]? = some ((0 + 1) % 256) ∧
     ((splitFileToPackets (List.replicate 4 0)).getD 0 [])[2]?
        = some (255 - (0 + 1) % 256)) := by
  have hlen : (splitFileToPackets (List.replicate 4 0)).length = 1 := by
    rw [(splitFileToPackets_chunking (List.replicate 4 0)).1]
    norm_num
  refine ⟨by omega, (splitFileToPackets_chunking (List.replicate 4 0)).2.2 0 (by omega)⟩

end Ymodem
